import Mathlib

/-!
Verification of the multiplayer_web server simulation core.

Shallow embedding of the server-side simulation subsystem:
  - src/server/src/input/InputHandler.js   (input validation, rate limiting)
  - src/server/src/entities/Player.js      (movement, jump gate, boundaries)
  - src/server/src/game/GameManager.js     (game loop, broadcast, teardown)
  - PhysicsWorld (body registry add and remove, enabled flag)

Numbers that are JavaScript floats are modelled over an arbitrary linear
ordered field K (instantiated at the rationals for concrete evaluation and
at the reals when the square root of Math.hypot matters).  Math.hypot is
passed in as an oracle `hyp : K → K → K`; the claims about magnitudes
instantiate it with the real square root of the sum of squares.
Wall-clock times from Date.now are modelled as naturals (milliseconds).
-/

/-- A JavaScript runtime value, as far as the input path inspects one:
booleans, numbers, strings, null, undefined, and plain objects
(association lists of string keys, unique by construction in JS). -/
inductive JSVal where
  | vbool : Bool → JSVal
  | vnum : ℚ → JSVal
  | vstr : String → JSVal
  | vnull : JSVal
  | vundef : JSVal
  | vobj : List (String × JSVal) → JSVal

/-- JavaScript truthiness, as used by `Boolean(v)` and by `!v`. -/
def jsTruthy : JSVal → Bool
  | JSVal.vbool b => b
  | JSVal.vnum q => decide (q ≠ 0)
  | JSVal.vstr s => decide (s ≠ "")
  | JSVal.vnull => false
  | JSVal.vundef => false
  | JSVal.vobj _ => true

/-- The JavaScript `typeof` operator on our value model
(`typeof null` is the string for objects, as in JS). -/
def jsTypeof : JSVal → String
  | JSVal.vbool _ => "boolean"
  | JSVal.vnum _ => "number"
  | JSVal.vstr _ => "string"
  | JSVal.vnull => "object"
  | JSVal.vundef => "undefined"
  | JSVal.vobj _ => "object"

/-- The five directional intent bits of a Participant
(`this.input` in Player.js line 12). -/
structure PInput where
  left : Bool
  right : Bool
  forward : Bool
  backward : Bool
  jump : Bool
deriving DecidableEq

namespace InputHandler

/-- Source `this.validInputs` (InputHandler.js line 8). -/
def validKeys : List String := ["left", "right", "forward", "backward", "jump"]

/-- Source `this.INPUT_RATE_LIMIT` (InputHandler.js line 12): minimum ms between inputs. -/
def INPUT_RATE_LIMIT : ℕ := 16

/-- Source `validateInput` (InputHandler.js lines 20-36): reject anything that is
falsy or not of object type; otherwise keep, of the five recognized keys,
those present in the raw record, coercing each value to boolean.  The
result is the built `validatedInput` record as an association list. -/
def validateInput (raw : JSVal) : Option (List (String × Bool)) :=
  if jsTruthy raw = false ∨ jsTypeof raw ≠ "object" then none
  else
    match raw with
    | JSVal.vobj kvs =>
        some (validKeys.filterMap fun k =>
          (List.lookup k kvs).map fun v => (k, jsTruthy v))
    | _ => none

/-- The per-connection `lastInputTime` bookkeeping is a JS Map from the
player id to the ms timestamp of the last accepted input; modelled as an
association list (keys unique, insertion order preserved, as in a JS Map). -/
def RateMap : Type := List (String × ℕ)

/-- Source `this.lastInputTime.get(playerId) || 0` (InputHandler.js line 45). -/
def getLast (m : List (String × ℕ)) (id : String) : ℕ :=
  (List.lookup id m).getD 0

/-- Source `this.lastInputTime.set(playerId, now)` (InputHandler.js line 48):
replace the entry of this key if present, else append, as a JS Map does. -/
def mapSet : List (String × ℕ) → String → ℕ → List (String × ℕ)
  | [], id, t => [(id, t)]
  | e :: rest, id, t =>
      if e.1 = id then (id, t) :: rest else e :: mapSet rest id t

/-- Source `shouldProcessInput` (InputHandler.js lines 43-53): accept when at least
INPUT_RATE_LIMIT ms elapsed since the last accepted input (0 when none),
recording the new timestamp exactly on acceptance.  Returns the decision
together with the updated bookkeeping. -/
def shouldProcessInput (now : ℕ) (id : String) (m : List (String × ℕ)) :
    Bool × List (String × ℕ) :=
  let lastTime := getLast m id
  if INPUT_RATE_LIMIT ≤ now - lastTime then (true, mapSet m id now)
  else (false, m)

end InputHandler

namespace Player

/-- Source `updateInput` (Player.js lines 61-63): `this.input = spread of the old
input then the validated record`, so a key present in the update wins and
an absent key keeps its previous value. -/
def updateInput (p : PInput) (upd : List (String × Bool)) : PInput :=
  { left := (List.lookup ("left") upd).getD p.left
    right := (List.lookup ("right") upd).getD p.right
    forward := (List.lookup ("forward") upd).getD p.forward
    backward := (List.lookup ("backward") upd).getD p.backward
    jump := (List.lookup ("jump") upd).getD p.jump }

end Player

namespace InputHandler

/-- Source `processInput` (InputHandler.js lines 62-77): validate, then rate limit,
then apply to the Participant; returns whether the input was applied,
together with the resulting bookkeeping and Participant input record. -/
def processInput (now : ℕ) (id : String) (raw : JSVal) (pl : PInput)
    (m : List (String × ℕ)) : Bool × List (String × ℕ) × PInput :=
  match validateInput raw with
  | none => (false, m, pl)
  | some validInput =>
      let r := shouldProcessInput now id m
      if r.1 then (true, r.2, Player.updateInput pl validInput)
      else (false, r.2, pl)

end InputHandler

/-- The spec-side notion of a structured record for the refinement claim C7:
the raw input is a plain object. -/
def specIsStructuredRecord : JSVal → Bool := fun v =>
  match v with
  | JSVal.vobj _ => true
  | _ => false

/-- A 3-component vector of field elements (CANNON.Vec3 and the plain
position and velocity records of Player.js). -/
structure Vec3 (K : Type) where
  x : K
  y : K
  z : K
deriving DecidableEq

/-- The state of a CANNON rigid body, as far as Player.js touches it:
mass, position, velocity, angular velocity and the force accumulator
that applyForce adds into (integrated later by the solver step, outside
the entity update). -/
structure BodyState (K : Type) where
  mass : K
  position : Vec3 K
  velocity : Vec3 K
  angularVelocity : Vec3 K
  force : Vec3 K
deriving DecidableEq

/-- The entity state of a Participant (Player.js): the mirror position and
velocity records, the grounded flag, the pending input record, the owned
rigid body when physics is enabled (none in the kinematic fallback), the
enabled flag of the physics world the entity was constructed against, and
the cosmetic identity fields. -/
structure PlayerState (K : Type) where
  id : String
  color : String
  physicsEnabled : Bool
  position : Vec3 K
  velocity : Vec3 K
  onGround : Bool
  input : PInput
  body : Option (BodyState K)
deriving DecidableEq

/-- The outcome of the downward ray cast of checkGroundContact
(CANNON.RaycastResult fields read at Player.js line 149).  The ray query
itself runs inside the cannon-es world, outside this repository, so the
outcome is an oracle supplied per tick. -/
structure RayResult (K : Type) where
  hasHit : Bool
  distance : K
deriving DecidableEq

namespace Player

variable {K : Type} [LinearOrderedField K]

/-- Source `let xxxx = 150` (Player.js line 14). -/
def xxxx : K := 150

/-- Source `this.SPEED = 16.0 * xxxx` (Player.js line 16). -/
def SPEED : K := 16 * xxxx

/-- Source `this.MAX_HORIZONTAL_SPEED = 18.0 * xxxx` (Player.js line 17). -/
def MAX_HORIZONTAL_SPEED : K := 18 * xxxx

/-- Source `this.ACCELERATION = 19.0 * xxxx` (Player.js line 18). -/
def ACCELERATION : K := 19 * xxxx

/-- Source `this.AIR_ACCELERATION = 1.4` (Player.js line 19). -/
def AIR_ACCELERATION : K := 14 / 10

/-- Source `this.JUMP_FORCE = 1.3` (Player.js line 20). -/
def JUMP_FORCE : K := 13 / 10

/-- Source `this.FLOATINESS = 0.35` (Player.js line 22). -/
def FLOATINESS : K := 35 / 100

/-- Source `this.VELOCITY_LERP = 18.0` (Player.js line 23). -/
def VELOCITY_LERP : K := 18

/-- The horizontal target velocity both movement paths build from the four
directional bits and then normalize through Math.hypot (Player.js lines
115-126 and 156-166, identical code): accumulate plus or minus SPEED per
axis, and when the hypot length exceeds SPEED scale both axes back onto
the SPEED circle.  `hyp` is the Math.hypot oracle. -/
def movementTarget (hyp : K → K → K) (i : PInput) : K × K :=
  let tx0 : K := 0
  let tx1 := if i.left then tx0 - SPEED else tx0
  let tx := if i.right then tx1 + SPEED else tx1
  let tz0 : K := 0
  let tz1 := if i.forward then tz0 - SPEED else tz0
  let tz := if i.backward then tz1 + SPEED else tz1
  let len := hyp tx tz
  if len > SPEED then (tx / len * SPEED, tz / len * SPEED) else (tx, tz)

/-- The ms-to-seconds heuristic: `if (deltaTime > 0.1) deltaTime = deltaTime
/ 1000` — it appears once in update (Player.js line 71) and once more at
the top of updateSimpleMovement (Player.js line 114). -/
def normalizeDelta (dt : K) : K := if dt > 1 / 10 then dt / 1000 else dt

/-- The body of updateSimpleMovement after its delta guard (Player.js lines
115-138): lerp the horizontal velocity toward the normalized target,
integrate position by the elapsed time, then clamp x and z into [-50, 50]
and clamp y up to 0. -/
def simpleCore (hyp : K → K → K) (dt : K) (p : PlayerState K) : PlayerState K :=
  let t := movementTarget hyp p.input
  let lerp := min 1 (VELOCITY_LERP * dt)
  let vx := p.velocity.x + (t.1 - p.velocity.x) * lerp
  let vz := p.velocity.z + (t.2 - p.velocity.z) * lerp
  let px := p.position.x + vx * dt
  let pz := p.position.z + vz * dt
  { p with
    velocity := ⟨vx, p.velocity.y, vz⟩
    position := ⟨max (-50) (min 50 px), max 0 p.position.y, max (-50) (min 50 pz)⟩ }

/-- Source `updateSimpleMovement` (Player.js lines 112-139): re-apply the delta
guard of line 114, then run the kinematic movement body. -/
def updateSimpleMovement (hyp : K → K → K) (dt : K) (p : PlayerState K) :
    PlayerState K :=
  simpleCore hyp (normalizeDelta dt) p

/-- Source `checkGroundContact` (Player.js lines 141-150): with a body present,
grounded exactly when the downward ray hit within distance 1.01; without
a body the method returns early. -/
def checkGroundContact (ray : RayResult K) (p : PlayerState K) : PlayerState K :=
  match p.body with
  | none => p
  | some _ => { p with onGround := ray.hasHit && decide (ray.distance < 101 / 100) }

/-- Source `applyMovementForces` (Player.js lines 152-209).  Grounded: lerp the
horizontal velocity of the body toward the target, clamp its hypot length to
MAX_HORIZONTAL_SPEED, then if jump is asserted while still grounded set
the vertical velocity to JUMP_FORCE and clear the grounded flag.
Airborne: add a corrective horizontal force into the force accumulator
(applyForce) and clamp the horizontal velocity to 1.4 times
MAX_HORIZONTAL_SPEED; the vertical velocity is left alone. -/
def applyMovementForces (hyp : K → K → K) (dt : K) (p : PlayerState K) :
    PlayerState K :=
  match p.body with
  | none => p
  | some b =>
    let t := movementTarget hyp p.input
    if p.onGround then
      let lerp := min 1 (ACCELERATION * dt)
      let vx := b.velocity.x + (t.1 - b.velocity.x) * lerp
      let vz := b.velocity.z + (t.2 - b.velocity.z) * lerp
      let hv := hyp vx vz
      let s := MAX_HORIZONTAL_SPEED / hv
      let vx2 := if hv > MAX_HORIZONTAL_SPEED then vx * s else vx
      let vz2 := if hv > MAX_HORIZONTAL_SPEED then vz * s else vz
      if p.input.jump && p.onGround then
        { p with
          body := some { b with velocity := ⟨vx2, JUMP_FORCE, vz2⟩ }
          onGround := false }
      else
        { p with body := some { b with velocity := ⟨vx2, b.velocity.y, vz2⟩ } }
    else
      let forceX := (t.1 - b.velocity.x) * AIR_ACCELERATION * b.mass
      let forceZ := (t.2 - b.velocity.z) * AIR_ACCELERATION * b.mass
      let f2 : Vec3 K := ⟨b.force.x + forceX, b.force.y + 0, b.force.z + forceZ⟩
      let hv := hyp b.velocity.x b.velocity.z
      let cap := MAX_HORIZONTAL_SPEED * (14 / 10)
      let s := cap / hv
      let vx2 := if hv > cap then b.velocity.x * s else b.velocity.x
      let vz2 := if hv > cap then b.velocity.z * s else b.velocity.z
      { p with
        body := some { b with velocity := ⟨vx2, b.velocity.y, vz2⟩, force := f2 } }

/-- Source `applyBoundaryConstraints` (Player.js lines 211-220): when the
horizontal position of the body exceeds the boundary 48 on either axis or
its height is below -10, hard-reset position to (0, 5, 0) and zero velocity
and angular velocity. -/
def applyBoundaryConstraints (p : PlayerState K) : PlayerState K :=
  match p.body with
  | none => p
  | some b =>
    if |b.position.x| > 48 ∨ |b.position.z| > 48 ∨ b.position.y < -10 then
      { p with
        body := some { b with
          position := ⟨0, 5, 0⟩
          velocity := ⟨0, 0, 0⟩
          angularVelocity := ⟨0, 0, 0⟩ } }
    else p

/-- The mirror sync at the top of the physics-backed update (Player.js lines
80-83): copy the body position and velocity into the entity records. -/
def syncFromBody (b : BodyState K) (p : PlayerState K) : PlayerState K :=
  { p with position := b.position, velocity := b.velocity }

/-- The floatiness force while airborne (Player.js lines 92-102): when not
grounded and FLOATINESS is positive, apply an upward force of mass times
minus the gravity y component times FLOATINESS into the accumulator. -/
def floatinessStep (gravY : K) (p : PlayerState K) : PlayerState K :=
  if (!p.onGround) && decide ((FLOATINESS : K) > 0) then
    match p.body with
    | some b =>
        { p with body := some { b with
            force := ⟨b.force.x, b.force.y + b.mass * (-gravY) * FLOATINESS,
              b.force.z⟩ } }
    | none => p
  else p

/-- The rotation stop (Player.js lines 105-106): zero the x and z angular
velocity of the body. -/
def angularLockStep (p : PlayerState K) : PlayerState K :=
  match p.body with
  | some b =>
      { p with body := some { b with
          angularVelocity := ⟨0, b.angularVelocity.y, 0⟩ } }
  | none => p

/-- The physics-backed branch of `update` (Player.js lines 79-109), taking
the already-normalized elapsed seconds, strictly in source order: mirror
sync, ground check, movement forces, floatiness, rotation stop, boundary
enforcement.  `gravY` is the y component of the world gravity vector read
from the physics world. -/
def physicsTick (hyp : K → K → K) (ray : RayResult K) (gravY : K) (dt : K)
    (p : PlayerState K) : PlayerState K :=
  match p.body with
  | none => p
  | some b =>
      applyBoundaryConstraints (angularLockStep (floatinessStep gravY
        (applyMovementForces hyp dt (checkGroundContact ray (syncFromBody b p)))))

/-- Source `update` (Player.js lines 68-110) for a numeric deltaTime: normalize the
delta once (line 71), then run the kinematic fallback when there is no
body or physics is disabled (lines 73-77), else the physics-backed tick.
The non-numeric-deltaTime branch of line 69 and the lastUpdate wall-clock
bookkeeping are transport-time concerns not modelled here. -/
def update (hyp : K → K → K) (ray : RayResult K) (gravY : K) (dt0 : K)
    (p : PlayerState K) : PlayerState K :=
  let dt := normalizeDelta dt0
  match p.body with
  | none => updateSimpleMovement hyp dt p
  | some _ =>
      if p.physicsEnabled then physicsTick hyp ray gravY dt p
      else updateSimpleMovement hyp dt p

/-- The elapsed time the kinematic fallback actually integrates with when a
numeric deltaTime flows through `update`: the guard of update line 71
runs once, then the guard of updateSimpleMovement line 114 runs again on
the already-converted value. -/
def fallbackIntegrationDelta (dt : K) : K := normalizeDelta (normalizeDelta dt)

/-- The fallback branch of `createPhysicsBody` (Player.js lines 29-34) as
reached from the constructor (lines 4-27) when the physics world is
disabled: plain position tracking, zero velocity, no body, grounded flag
false and all input bits clear. -/
def createPlayerFallback (id : String) (x y z : K) (color : String) :
    PlayerState K :=
  { id := id
    color := color
    physicsEnabled := false
    position := ⟨x, y, z⟩
    velocity := ⟨0, 0, 0⟩
    onGround := false
    input := ⟨false, false, false, false, false⟩
    body := none }

/-- The public participant state `getState` returns (Player.js lines 222-230). -/
structure PubState (K : Type) where
  id : String
  position : Vec3 K
  velocity : Vec3 K
  color : String
  onGround : Bool

/-- Source `getState` (Player.js lines 222-230); position and velocity are always
initialized by the constructor, so the `|| default` guards never fire. -/
def getState (p : PlayerState K) : PubState K :=
  ⟨p.id, p.position, p.velocity, p.color, p.onGround⟩

end Player

/-- The game state snapshot built each tick (GameManager.js lines 81-88):
the public states of all registered Participants, the tick timestamp,
and the physics flag of the debug payload (the per-body debug data is a
diagnostics-only sequence irrelevant to the claims, kept as its length
source, the enabled flag). -/
structure Snapshot (K : Type) where
  players : List (Player.PubState K)
  timestamp : ℕ
  physicsEnabled : Bool

/-- The mutable state of GameManager that the loop touches: the Participant
registry (a JS Map, keys unique) and the last tick wall-clock time. -/
structure GMState (K : Type) where
  players : List (String × PlayerState K)
  lastTick : ℕ

namespace GameManager

variable {K : Type} [LinearOrderedField K]

/-- Source `updateAllPlayers` (GameManager.js lines 69-73): update every registered
Participant with the elapsed seconds.  `rays` supplies the per-entity
ground ray outcome of this tick (the cast runs in the cannon world). -/
def updateAllPlayers (hyp : K → K → K) (rays : String → RayResult K)
    (gravY dt : K) (ps : List (String × PlayerState K)) :
    List (String × PlayerState K) :=
  ps.map fun e => (e.1, Player.update hyp (rays e.1) gravY dt e.2)

/-- Source `broadcastGameState` (GameManager.js lines 79-91): emit a gameUpdate
snapshot exactly when the registry is nonempty at this instant; the
snapshot maps getState over the registry values. -/
def broadcastGameState (physEnabled : Bool) (timestamp : ℕ)
    (ps : List (String × PlayerState K)) : Option (Snapshot K) :=
  if 0 < ps.length then
    some ⟨ps.map fun e => Player.getState e.2, timestamp, physEnabled⟩
  else none

/-- Source `gameLoop` (GameManager.js lines 50-63): measure the elapsed seconds
since the previous tick, step the physics world (the solver advance does
not touch the Participant registry, so it is the identity on this state),
update every Participant, then broadcast.  Returns the new manager state
and the emitted snapshot, if any. -/
def gameLoop (hyp : K → K → K) (rays : String → RayResult K) (gravY : K)
    (physEnabled : Bool) (now : ℕ) (st : GMState K) :
    GMState K × Option (Snapshot K) :=
  let dt : K := ((now - st.lastTick : ℕ) : K) / 1000
  let ps := updateAllPlayers hyp rays gravY dt st.players
  (⟨ps, now⟩, broadcastGameState physEnabled now ps)

end GameManager

/-- The body registry of PhysicsWorld (part of the cannon world object):
the enabled flag and the handles of the registered bodies. -/
structure WorldState where
  isEnabled : Bool
  bodies : List ℕ
deriving DecidableEq

/-- Modelled from the spec: the removeBody of the underlying cannon-es
World object is not part of this repository; per spec section 4.1,
"Removal must be idempotent (removing an already-removed or never-added
body is not an error)", so removal of a registered handle deletes one
occurrence and removal of an absent handle is a no-op. -/
def cannonRemoveBody (bodies : List ℕ) (b : ℕ) : List ℕ := bodies.erase b

namespace PhysicsWorld

/-- Source `removeBody` (PhysicsWorld source): delegate to the world when the world
exists and physics is enabled, else a no-op. -/
def removeBody (w : WorldState) (b : ℕ) : WorldState :=
  if w.isEnabled then { w with bodies := cannonRemoveBody w.bodies b } else w

end PhysicsWorld

namespace Player

/-- Source `destroy` (Player.js lines 232-234): when the entity owns a body (the
physicsWorld reference is always set), release it from the world; the
body reference itself is not cleared by destroy. -/
def destroy (body : Option ℕ) (w : WorldState) : WorldState :=
  match body with
  | some b => PhysicsWorld.removeBody w b
  | none => w

end Player

/-- The teardown view of the GameManager state: the Participant registry
keyed by connection id, each entry carrying the handle of its physics
body (none in fallback mode), together with the physics world registry. -/
structure TeardownState where
  players : List (String × Option ℕ)
  world : WorldState
deriving DecidableEq

namespace GameManager

/-- Source `removePlayer` (GameManager.js lines 119-126): look the Participant up;
when present, destroy it (releasing its body) and delete it from the
registry; when absent, do nothing. -/
def removePlayer (st : TeardownState) (id : String) : TeardownState :=
  match List.lookup id st.players with
  | some body =>
      { players := List.eraseP (fun e => e.1 == id) st.players
        world := Player.destroy body st.world }
  | none => st

end GameManager

namespace InputHandler

theorem lookup_mapSet (m : List (String × ℕ)) (id : String) (t : ℕ) :
    List.lookup id (mapSet m id t) = some t := by
  induction m with
  | nil => simp [mapSet, List.lookup]
  | cons e rest ih =>
      by_cases h : e.1 = id
      · simp [mapSet, h, List.lookup]
      · have hne : (id == e.1) = false := by
          simp [BEq.beq]
          intro hc
          exact h hc.symm
        simp [mapSet, h, List.lookup, hne]
        exact ih

theorem getLast_mapSet (m : List (String × ℕ)) (id : String) (t : ℕ) :
    getLast (mapSet m id t) id = t := by
  simp [getLast, lookup_mapSet]

end InputHandler

/-- C5: for one connection, of two well-formed input records whose arrival
times differ by less than the 16 ms minimum interval only the first is
applied (the second is dropped with no state change); when they differ by
more than the interval, both are applied. -/
theorem claim_C5_rate_limiting (id : String) (m0 : List (String × ℕ))
    (p0 : PInput) (r1 r2 : JSVal) (v1 v2 : List (String × Bool)) (t1 t2 : ℕ)
    (hv1 : InputHandler.validateInput r1 = some v1)
    (hv2 : InputHandler.validateInput r2 = some v2)
    (hfirst : InputHandler.getLast m0 id + 16 ≤ t1) (ht : t1 ≤ t2) :
    InputHandler.processInput t1 id r1 p0 m0
      = (true, InputHandler.mapSet m0 id t1, Player.updateInput p0 v1)
    ∧ (t2 < t1 + 16 →
        InputHandler.processInput t2 id r2 (Player.updateInput p0 v1)
            (InputHandler.mapSet m0 id t1)
          = (false, InputHandler.mapSet m0 id t1, Player.updateInput p0 v1))
    ∧ (t1 + 16 < t2 →
        InputHandler.processInput t2 id r2 (Player.updateInput p0 v1)
            (InputHandler.mapSet m0 id t1)
          = (true, InputHandler.mapSet (InputHandler.mapSet m0 id t1) id t2,
              Player.updateInput (Player.updateInput p0 v1) v2)) := by
  have hacc1 : InputHandler.INPUT_RATE_LIMIT ≤ t1 - InputHandler.getLast m0 id := by
    simp [InputHandler.INPUT_RATE_LIMIT]
    omega
  refine ⟨?_, ?_, ?_⟩
  · simp [InputHandler.processInput, hv1, InputHandler.shouldProcessInput, hacc1]
  · intro hlt
    have hrej : ¬ InputHandler.INPUT_RATE_LIMIT
        ≤ t2 - InputHandler.getLast (InputHandler.mapSet m0 id t1) id := by
      rw [InputHandler.getLast_mapSet]
      simp [InputHandler.INPUT_RATE_LIMIT]
      omega
    simp [InputHandler.processInput, hv2, InputHandler.shouldProcessInput, hrej]
  · intro hgt
    have hacc2 : InputHandler.INPUT_RATE_LIMIT
        ≤ t2 - InputHandler.getLast (InputHandler.mapSet m0 id t1) id := by
      rw [InputHandler.getLast_mapSet]
      simp [InputHandler.INPUT_RATE_LIMIT]
      omega
    simp [InputHandler.processInput, hv2, InputHandler.shouldProcessInput, hacc2]

/-- C6: whenever processInput rejects an input, by validation or by the
rate limit, it returns false and leaves the Participant input record and
the rate-limit bookkeeping untouched; the Participant updateInput takes
effect exactly when processInput returns true. -/
theorem claim_C6_rejection_no_side_effects (now : ℕ) (id : String)
    (raw : JSVal) (pl : PInput) (m : List (String × ℕ)) :
    (InputHandler.validateInput raw = none →
       InputHandler.processInput now id raw pl m = (false, m, pl))
    ∧ (∀ v, InputHandler.validateInput raw = some v →
        now - InputHandler.getLast m id < 16 →
        InputHandler.processInput now id raw pl m = (false, m, pl))
    ∧ (∀ v, InputHandler.validateInput raw = some v →
        16 ≤ now - InputHandler.getLast m id →
        InputHandler.processInput now id raw pl m
          = (true, InputHandler.mapSet m id now, Player.updateInput pl v)) := by
  refine ⟨?_, ?_, ?_⟩
  · intro h
    simp [InputHandler.processInput, h]
  · intro v hv hlt
    have hrej : ¬ InputHandler.INPUT_RATE_LIMIT ≤ now - InputHandler.getLast m id := by
      simp [InputHandler.INPUT_RATE_LIMIT]
      omega
    simp [InputHandler.processInput, hv, InputHandler.shouldProcessInput, hrej]
  · intro v hv hge
    simp [InputHandler.processInput, hv, InputHandler.shouldProcessInput,
      InputHandler.INPUT_RATE_LIMIT, hge]

/-- C7: validateInput rejects exactly the raw inputs that are not structured
records, and on an object it returns the filtered record holding exactly
the recognized keys present in the raw input, each value coerced to
boolean, every unrecognized key dropped. -/
theorem claim_C7_validate_characterization :
    (∀ raw, InputHandler.validateInput raw = none
        ↔ specIsStructuredRecord raw = false)
    ∧ (∀ kvs, ∃ l, InputHandler.validateInput (JSVal.vobj kvs) = some l ∧
        ∀ k b, (k, b) ∈ l ↔
          (k ∈ InputHandler.validKeys
            ∧ ∃ v, List.lookup k kvs = some v ∧ b = jsTruthy v)) := by
  constructor
  · intro raw
    cases raw <;>
      simp [InputHandler.validateInput, jsTruthy, jsTypeof, specIsStructuredRecord]
  · intro kvs
    refine ⟨InputHandler.validKeys.filterMap fun k =>
        (List.lookup k kvs).map fun v => (k, jsTruthy v), ?_, ?_⟩
    · simp [InputHandler.validateInput, jsTruthy, jsTypeof]
    · intro k b
      simp only [List.mem_filterMap, Option.map_eq_some', Prod.mk.injEq]
      constructor
      · rintro ⟨a, ha, v, hv, rfl, rfl⟩
        exact ⟨ha, v, hv, rfl⟩
      · rintro ⟨hk, v, hv, rfl⟩
        exact ⟨k, hk, v, hv, rfl, rfl⟩

theorem claim_C5_witness :
    InputHandler.processInput 100 ("a") (JSVal.vobj [("jump", JSVal.vbool true)])
        ⟨false, false, false, false, false⟩ []
      = (true, InputHandler.mapSet [] ("a") 100,
          Player.updateInput ⟨false, false, false, false, false⟩ [("jump", true)])
    ∧ InputHandler.processInput 110 ("a") (JSVal.vobj [("left", JSVal.vnum 1)])
        (Player.updateInput ⟨false, false, false, false, false⟩ [("jump", true)])
        (InputHandler.mapSet [] ("a") 100)
      = (false, InputHandler.mapSet [] ("a") 100,
          Player.updateInput ⟨false, false, false, false, false⟩ [("jump", true)])
    ∧ InputHandler.processInput 120 ("a") (JSVal.vobj [("left", JSVal.vnum 1)])
        (Player.updateInput ⟨false, false, false, false, false⟩ [("jump", true)])
        (InputHandler.mapSet [] ("a") 100)
      = (true, InputHandler.mapSet (InputHandler.mapSet [] ("a") 100) ("a") 120,
          Player.updateInput
            (Player.updateInput ⟨false, false, false, false, false⟩ [("jump", true)])
            [("left", true)]) := by
  have h1 := claim_C5_rate_limiting ("a") [] ⟨false, false, false, false, false⟩
    (JSVal.vobj [("jump", JSVal.vbool true)]) (JSVal.vobj [("left", JSVal.vnum 1)])
    [("jump", true)] [("left", true)] 100 110
    (by decide) (by decide) (by decide) (by decide)
  have h2 := claim_C5_rate_limiting ("a") [] ⟨false, false, false, false, false⟩
    (JSVal.vobj [("jump", JSVal.vbool true)]) (JSVal.vobj [("left", JSVal.vnum 1)])
    [("jump", true)] [("left", true)] 100 120
    (by decide) (by decide) (by decide) (by decide)
  exact ⟨h1.1, h1.2.1 (by decide), h2.2.2 (by decide)⟩

theorem claim_C6_witness :
    InputHandler.processInput 100 ("a") (JSVal.vnum 0)
        ⟨false, false, false, false, false⟩ []
      = (false, [], ⟨false, false, false, false, false⟩)
    ∧ InputHandler.processInput 100 ("a") (JSVal.vobj [("jump", JSVal.vbool true)])
        ⟨false, false, false, false, false⟩ [(("a"), 95)]
      = (false, [(("a"), 95)], ⟨false, false, false, false, false⟩)
    ∧ InputHandler.processInput 200 ("a") (JSVal.vobj [("jump", JSVal.vbool true)])
        ⟨false, false, false, false, false⟩ [(("a"), 95)]
      = (true, InputHandler.mapSet [(("a"), 95)] ("a") 200,
          Player.updateInput ⟨false, false, false, false, false⟩ [("jump", true)]) := by
  have h1 := claim_C6_rejection_no_side_effects 100 ("a") (JSVal.vnum 0)
    ⟨false, false, false, false, false⟩ []
  have h2 := claim_C6_rejection_no_side_effects 100 ("a")
    (JSVal.vobj [("jump", JSVal.vbool true)])
    ⟨false, false, false, false, false⟩ [(("a"), 95)]
  have h3 := claim_C6_rejection_no_side_effects 200 ("a")
    (JSVal.vobj [("jump", JSVal.vbool true)])
    ⟨false, false, false, false, false⟩ [(("a"), 95)]
  exact ⟨h1.1 (by decide), h2.2.1 [("jump", true)] (by decide) (by decide),
    h3.2.2 [("jump", true)] (by decide) (by decide)⟩

namespace Player

variable {K : Type} [LinearOrderedField K]

theorem floatiness_pos : (decide ((FLOATINESS : K) > 0)) = true := by
  simp only [FLOATINESS, decide_eq_true_eq, gt_iff_lt]
  norm_num

/-- One physics-backed tick with no ground contact detected and the body in
bounds keeps the body position and the vertical velocity unchanged, and
leaves the entity airborne. -/
theorem update_no_contact_preserves (hyp : K → K → K) (ray : RayResult K)
    (gravY dt : K) (p : PlayerState K) (b : BodyState K)
    (hb : p.body = some b)
    (hray : (ray.hasHit && decide (ray.distance < (101 / 100 : K))) = false)
    (hin : ¬(|b.position.x| > 48 ∨ |b.position.z| > 48 ∨ b.position.y < -10))
    (hen : p.physicsEnabled = true) :
    ∃ b2, (update hyp ray gravY dt p).body = some b2
      ∧ b2.position = b.position
      ∧ b2.velocity.y = b.velocity.y
      ∧ (update hyp ray gravY dt p).physicsEnabled = true
      ∧ (update hyp ray gravY dt p).onGround = false := by
  simp only [update, physicsTick, hb, hen, if_true, syncFromBody,
    checkGroundContact, applyMovementForces, floatinessStep, angularLockStep,
    applyBoundaryConstraints, hray, floatiness_pos,
    Bool.false_eq_true, if_false, Bool.not_false, Bool.true_and]
  rw [if_neg hin]
  exact ⟨_, rfl, rfl, rfl, rfl, rfl⟩

end Player


/-- C1: in physics-backed mode, within one tick: jump asserted while
grounded sets the vertical velocity to JUMP_FORCE and clears the grounded
flag at once; jump asserted while airborne leaves the vertical velocity
of the movement step untouched; and with jump held across a run of ticks
in which the ground ray never reports a contact, the vertical velocity is
never set by the jump again (body position also stays put, so the gate
stays closed until a new contact). -/
theorem claim_C1_grounded_jump_gate {K : Type} [LinearOrderedField K]
    (hyp : K → K → K) (dt : K) (p : PlayerState K) (b : BodyState K)
    (hb : p.body = some b) :
    (p.onGround = true → p.input.jump = true →
      ∃ b2, (Player.applyMovementForces hyp dt p).body = some b2
        ∧ b2.velocity.y = Player.JUMP_FORCE
        ∧ (Player.applyMovementForces hyp dt p).onGround = false)
    ∧ (p.onGround = false →
      ∃ b2, (Player.applyMovementForces hyp dt p).body = some b2
        ∧ b2.velocity.y = b.velocity.y)
    ∧ (∀ (rays : List (RayResult K)) (gravY : K),
        (∀ r ∈ rays, (r.hasHit && decide (r.distance < (101 / 100 : K))) = false) →
        ¬(|b.position.x| > 48 ∨ |b.position.z| > 48 ∨ b.position.y < -10) →
        p.physicsEnabled = true → p.input.jump = true →
        ∃ b2, ((rays.foldl (fun q r => Player.update hyp r gravY dt q) p).body
            = some b2)
          ∧ b2.velocity.y = b.velocity.y ∧ b2.position = b.position) := by
  refine ⟨?_, ?_, ?_⟩
  · intro hg hj
    simp only [Player.applyMovementForces, hb, hg, hj, if_true, Bool.true_and]
    refine ⟨_, rfl, ?_, ?_⟩ <;> simp
  · intro hg
    simp only [Player.applyMovementForces, hb, hg, Bool.false_eq_true, if_false]
    refine ⟨_, rfl, ?_⟩
    simp
  · intro rays gravY hrays hin hen hjump
    clear hjump
    revert hb hin hen
    induction rays generalizing p b with
    | nil =>
        intro hb _ _
        exact ⟨b, hb, rfl, rfl⟩
    | cons r rs ih =>
        intro hb hin hen
        obtain ⟨b2, hb2, hpos, hvy, hen2, _⟩ :=
          Player.update_no_contact_preserves hyp r gravY dt p b hb
            (hrays r (List.mem_cons_self r rs)) hin hen
        have hin2 : ¬(|b2.position.x| > 48 ∨ |b2.position.z| > 48
            ∨ b2.position.y < -10) := by
          rw [hpos]; exact hin
        obtain ⟨b3, hb3, hvy3, hpos3⟩ :=
          ih (Player.update hyp r gravY dt p) b2
            (fun r2 h2 => hrays r2 (List.mem_cons_of_mem r h2)) hb2 hin2 hen2
        exact ⟨b3, hb3, by rw [hvy3, hvy], by rw [hpos3, hpos]⟩

theorem claim_C1_witness :
    (∃ b2,
      (Player.applyMovementForces (fun _ _ : ℚ => 0) (1 / 60)
          ⟨"w", "c", true, ⟨0, 2, 0⟩, ⟨0, 0, 0⟩, true,
            ⟨false, false, false, false, true⟩,
            some ⟨1, ⟨0, 2, 0⟩, ⟨0, 0, 0⟩, ⟨0, 0, 0⟩, ⟨0, 0, 0⟩⟩⟩).body = some b2
      ∧ b2.velocity.y = Player.JUMP_FORCE
      ∧ (Player.applyMovementForces (fun _ _ : ℚ => 0) (1 / 60)
          ⟨"w", "c", true, ⟨0, 2, 0⟩, ⟨0, 0, 0⟩, true,
            ⟨false, false, false, false, true⟩,
            some ⟨1, ⟨0, 2, 0⟩, ⟨0, 0, 0⟩, ⟨0, 0, 0⟩, ⟨0, 0, 0⟩⟩⟩).onGround = false)
    ∧ (∃ b2,
      (List.foldl
          (fun q r => Player.update (fun _ _ : ℚ => 0) r (-(982 / 100)) (1 / 60) q)
          ⟨"w", "c", true, ⟨0, 2, 0⟩, ⟨0, 0, 0⟩, false,
            ⟨false, false, false, false, true⟩,
            some ⟨1, ⟨0, 2, 0⟩, ⟨0, 0, 0⟩, ⟨0, 0, 0⟩, ⟨0, 0, 0⟩⟩⟩
          [⟨false, 0⟩, ⟨false, 5⟩]).body = some b2
      ∧ b2.velocity.y = 0 ∧ b2.position = ⟨0, 2, 0⟩) := by
  constructor
  · exact (claim_C1_grounded_jump_gate (fun _ _ : ℚ => 0) (1 / 60)
      ⟨"w", "c", true, ⟨0, 2, 0⟩, ⟨0, 0, 0⟩, true,
        ⟨false, false, false, false, true⟩,
        some ⟨1, ⟨0, 2, 0⟩, ⟨0, 0, 0⟩, ⟨0, 0, 0⟩, ⟨0, 0, 0⟩⟩⟩
      ⟨1, ⟨0, 2, 0⟩, ⟨0, 0, 0⟩, ⟨0, 0, 0⟩, ⟨0, 0, 0⟩⟩ rfl).1 rfl rfl
  · exact (claim_C1_grounded_jump_gate (fun _ _ : ℚ => 0) (1 / 60)
      ⟨"w", "c", true, ⟨0, 2, 0⟩, ⟨0, 0, 0⟩, false,
        ⟨false, false, false, false, true⟩,
        some ⟨1, ⟨0, 2, 0⟩, ⟨0, 0, 0⟩, ⟨0, 0, 0⟩, ⟨0, 0, 0⟩⟩⟩
      ⟨1, ⟨0, 2, 0⟩, ⟨0, 0, 0⟩, ⟨0, 0, 0⟩, ⟨0, 0, 0⟩⟩ rfl).2.2
      [⟨false, 0⟩, ⟨false, 5⟩] (-(982 / 100)) (by simp) (by norm_num) rfl rfl

namespace Player

variable {K : Type} [LinearOrderedField K]

/-- The movement step never moves the body or its angular velocity: whatever
branch runs, only the linear velocity and the force accumulator change. -/
theorem applyMovementForces_body (hyp : K → K → K) (dt : K) (p : PlayerState K)
    (b : BodyState K) (hb : p.body = some b) :
    ∃ b2, (applyMovementForces hyp dt p).body = some b2
      ∧ b2.position = b.position ∧ b2.angularVelocity = b.angularVelocity := by
  simp only [applyMovementForces, hb]
  split
  · split
    · exact ⟨_, rfl, rfl, rfl⟩
    · exact ⟨_, rfl, rfl, rfl⟩
  · exact ⟨_, rfl, rfl, rfl⟩

/-- The floatiness step only writes the force accumulator. -/
theorem floatinessStep_body (gravY : K) (p : PlayerState K) (b : BodyState K)
    (hb : p.body = some b) :
    ∃ b2, (floatinessStep gravY p).body = some b2 ∧ b2.position = b.position := by
  simp only [floatinessStep, hb]
  split
  · exact ⟨_, rfl, rfl⟩
  · exact ⟨b, hb, rfl⟩

/-- A physics-backed tick that starts with the body out of bounds hard-resets
it to the respawn point with zero velocity and angular velocity. -/
theorem physicsTick_oob (hyp : K → K → K) (ray : RayResult K) (gravY dt : K)
    (p : PlayerState K) (b : BodyState K) (hb : p.body = some b)
    (hoob : |b.position.x| > 48 ∨ |b.position.z| > 48 ∨ b.position.y < -10) :
    ∃ b2, (physicsTick hyp ray gravY dt p).body = some b2
      ∧ b2.position = (⟨0, 5, 0⟩ : Vec3 K)
      ∧ b2.velocity = (⟨0, 0, 0⟩ : Vec3 K)
      ∧ b2.angularVelocity = (⟨0, 0, 0⟩ : Vec3 K) := by
  simp only [physicsTick, hb]
  have h1 : (checkGroundContact ray (syncFromBody b p)).body = some b := by
    simp only [checkGroundContact, syncFromBody, hb]
  obtain ⟨b3, hb3, hpos3, _⟩ :=
    applyMovementForces_body hyp dt (checkGroundContact ray (syncFromBody b p)) b h1
  obtain ⟨b4, hb4, hpos4⟩ := floatinessStep_body gravY _ b3 hb3
  have hoob4 : |b4.position.x| > 48 ∨ |b4.position.z| > 48 ∨ b4.position.y < -10 := by
    rw [hpos4, hpos3]; exact hoob
  simp only [angularLockStep, hb4, applyBoundaryConstraints]
  rw [if_pos hoob4]
  exact ⟨_, rfl, rfl, rfl, rfl⟩

end Player

namespace Player

variable {K : Type} [LinearOrderedField K]

/-- The component clamp of the kinematic fallback lands in [-50, 50]. -/
theorem clamp_abs_le (v : K) : |max (-50) (min 50 v)| ≤ 50 := by
  rw [abs_le]
  constructor
  · exact le_max_left (-50) (min 50 v)
  · exact max_le (by norm_num) (min_le_left 50 v)

end Player

/-- C2 (amended): after one update tick, in physics-backed mode a body whose
horizontal position exceeds the boundary 48 on either axis or whose
height is below -10 is teleported to (0, 5, 0) with velocity and angular
velocity reset to zero; in kinematic fallback mode the position is
clamped component-wise into [-50, 50] (a slightly larger box than the
physics boundary 48), the height only clamped up to 0, and no teleport or
velocity reset ever happens (the vertical velocity is untouched). -/
theorem claim_C2_boundary_amended {K : Type} [LinearOrderedField K]
    (hyp : K → K → K) (ray : RayResult K) (gravY dt : K) (p : PlayerState K) :
    (∀ b, p.body = some b → p.physicsEnabled = true →
      (|b.position.x| > 48 ∨ |b.position.z| > 48 ∨ b.position.y < -10) →
      ∃ b2, (Player.update hyp ray gravY dt p).body = some b2
        ∧ b2.position = (⟨0, 5, 0⟩ : Vec3 K)
        ∧ b2.velocity = (⟨0, 0, 0⟩ : Vec3 K)
        ∧ b2.angularVelocity = (⟨0, 0, 0⟩ : Vec3 K))
    ∧ (p.body = none →
      |(Player.update hyp ray gravY dt p).position.x| ≤ 50
      ∧ |(Player.update hyp ray gravY dt p).position.z| ≤ 50
      ∧ (Player.update hyp ray gravY dt p).position.y = max 0 p.position.y
      ∧ (Player.update hyp ray gravY dt p).velocity.y = p.velocity.y
      ∧ (Player.update hyp ray gravY dt p).body = none) := by
  constructor
  · intro b hb hen hoob
    simp only [Player.update, hb, hen, if_true]
    exact Player.physicsTick_oob hyp ray gravY (Player.normalizeDelta dt) p b hb hoob
  · intro hb
    simp only [Player.update, hb, Player.updateSimpleMovement, Player.simpleCore]
    refine ⟨Player.clamp_abs_le _, Player.clamp_abs_le _, ?_, ?_, ?_⟩ <;>
      simp [hb]

theorem claim_C2_counterexample :
    ¬ (|(Player.update (fun x z : ℝ => Real.sqrt (x ^ 2 + z ^ 2)) ⟨false, 0⟩
        (-(982 / 100)) (1 / 60)
        ⟨"c2", "c", false, ⟨99 / 2, 0, 0⟩, ⟨0, 0, 0⟩, false,
          ⟨false, false, false, false, false⟩, none⟩).position.x| ≤ 48) := by
  simp only [Player.update, Player.updateSimpleMovement, Player.simpleCore,
    Player.normalizeDelta, Player.movementTarget, Player.SPEED, Player.xxxx,
    Player.VELOCITY_LERP]
  norm_num [Real.sqrt_zero, abs_le]

theorem claim_C2_witness :
    (∃ b2, (Player.update (fun _ _ : ℚ => 0) ⟨false, 0⟩ (-(982 / 100)) (1 / 60)
        ⟨"w2", "c", true, ⟨0, -20, 0⟩, ⟨3, 4, 5⟩, false,
          ⟨false, false, false, false, false⟩,
          some ⟨1, ⟨0, -20, 0⟩, ⟨3, 4, 5⟩, ⟨0, 0, 1⟩, ⟨0, 0, 0⟩⟩⟩).body = some b2
      ∧ b2.position = (⟨0, 5, 0⟩ : Vec3 ℚ)
      ∧ b2.velocity = (⟨0, 0, 0⟩ : Vec3 ℚ)
      ∧ b2.angularVelocity = (⟨0, 0, 0⟩ : Vec3 ℚ))
    ∧ (|(Player.update (fun _ _ : ℚ => 0) ⟨false, 0⟩ (-(982 / 100)) (1 / 60)
          ⟨"w2b", "c", false, ⟨60, -3, 0⟩, ⟨0, 2, 0⟩, false,
            ⟨false, false, false, false, false⟩, none⟩).position.x| ≤ 50
        ∧ |(Player.update (fun _ _ : ℚ => 0) ⟨false, 0⟩ (-(982 / 100)) (1 / 60)
          ⟨"w2b", "c", false, ⟨60, -3, 0⟩, ⟨0, 2, 0⟩, false,
            ⟨false, false, false, false, false⟩, none⟩).position.z| ≤ 50
        ∧ (Player.update (fun _ _ : ℚ => 0) ⟨false, 0⟩ (-(982 / 100)) (1 / 60)
          ⟨"w2b", "c", false, ⟨60, -3, 0⟩, ⟨0, 2, 0⟩, false,
            ⟨false, false, false, false, false⟩, none⟩).position.y = max 0 (-3)
        ∧ (Player.update (fun _ _ : ℚ => 0) ⟨false, 0⟩ (-(982 / 100)) (1 / 60)
          ⟨"w2b", "c", false, ⟨60, -3, 0⟩, ⟨0, 2, 0⟩, false,
            ⟨false, false, false, false, false⟩, none⟩).velocity.y = 2
        ∧ (Player.update (fun _ _ : ℚ => 0) ⟨false, 0⟩ (-(982 / 100)) (1 / 60)
          ⟨"w2b", "c", false, ⟨60, -3, 0⟩, ⟨0, 2, 0⟩, false,
            ⟨false, false, false, false, false⟩, none⟩).body = none) := by
  constructor
  · exact (claim_C2_boundary_amended (fun _ _ : ℚ => 0) ⟨false, 0⟩ (-(982 / 100))
      (1 / 60)
      ⟨"w2", "c", true, ⟨0, -20, 0⟩, ⟨3, 4, 5⟩, false,
        ⟨false, false, false, false, false⟩,
        some ⟨1, ⟨0, -20, 0⟩, ⟨3, 4, 5⟩, ⟨0, 0, 1⟩, ⟨0, 0, 0⟩⟩⟩).1
      ⟨1, ⟨0, -20, 0⟩, ⟨3, 4, 5⟩, ⟨0, 0, 1⟩, ⟨0, 0, 0⟩⟩ rfl rfl
      (Or.inr (Or.inr (by norm_num)))
  · exact (claim_C2_boundary_amended (fun _ _ : ℚ => 0) ⟨false, 0⟩ (-(982 / 100))
      (1 / 60)
      ⟨"w2b", "c", false, ⟨60, -3, 0⟩, ⟨0, 2, 0⟩, false,
        ⟨false, false, false, false, false⟩, none⟩).2 rfl

/-- Scaling a vector whose hypot length exceeds S back by S over the length
lands exactly on the circle of radius S, and an unscaled vector has length
at most S, so the normalized magnitude never exceeds S. -/
theorem sqrt_clamp_pair_le (S a b : ℝ) (hS : 0 < S) :
    Real.sqrt (((if Real.sqrt (a ^ 2 + b ^ 2) > S
        then (a / Real.sqrt (a ^ 2 + b ^ 2) * S, b / Real.sqrt (a ^ 2 + b ^ 2) * S)
        else (a, b)) : ℝ × ℝ).1 ^ 2
      + ((if Real.sqrt (a ^ 2 + b ^ 2) > S
        then (a / Real.sqrt (a ^ 2 + b ^ 2) * S, b / Real.sqrt (a ^ 2 + b ^ 2) * S)
        else (a, b)) : ℝ × ℝ).2 ^ 2) ≤ S := by
  have hLsq : Real.sqrt (a ^ 2 + b ^ 2) ^ 2 = a ^ 2 + b ^ 2 :=
    Real.sq_sqrt (by positivity)
  by_cases hc : Real.sqrt (a ^ 2 + b ^ 2) > S
  · have hLne : Real.sqrt (a ^ 2 + b ^ 2) ≠ 0 := by
      intro h0
      rw [h0] at hc
      exact absurd hc (not_lt.mpr hS.le)
    simp only [if_pos hc]
    have h2 : (a / Real.sqrt (a ^ 2 + b ^ 2) * S) ^ 2
        + (b / Real.sqrt (a ^ 2 + b ^ 2) * S) ^ 2
        = (a ^ 2 + b ^ 2) / Real.sqrt (a ^ 2 + b ^ 2) ^ 2 * S ^ 2 := by
      ring
    have hab : a ^ 2 + b ^ 2 ≠ 0 := by
      intro h0
      exact hLne (by rw [h0, Real.sqrt_zero])
    have h3 : (a ^ 2 + b ^ 2) / Real.sqrt (a ^ 2 + b ^ 2) ^ 2 = 1 := by
      rw [hLsq]
      exact div_self hab
    rw [h2, h3, one_mul, Real.sqrt_sq hS.le]
  · simp only [if_neg hc]
    exact not_lt.mp hc

/-- C3: for every combination of the four directional bits, the normalized
horizontal target velocity (with Math.hypot as the real square root of the
sum of squares) has magnitude at most the single-axis top speed SPEED. -/
theorem claim_C3_diagonal_normalization (i : PInput) :
    Real.sqrt
        ((Player.movementTarget (fun x z : ℝ => Real.sqrt (x ^ 2 + z ^ 2)) i).1 ^ 2
        + (Player.movementTarget (fun x z : ℝ => Real.sqrt (x ^ 2 + z ^ 2)) i).2 ^ 2)
      ≤ Player.SPEED := by
  have hS : (0 : ℝ) < Player.SPEED := by norm_num [Player.SPEED, Player.xxxx]
  simp only [Player.movementTarget]
  exact sqrt_clamp_pair_le Player.SPEED _ _ hS

/-- C4 (amended): for a numeric deltaTime above the 0.1 threshold, the
physics-backed path integrates with deltaTime / 1000 (the guard of update
runs exactly once before physicsTick); the kinematic fallback path runs
the guard a second time inside updateSimpleMovement, so it integrates
with deltaTime / 1000 only when deltaTime is at most 100, and with
deltaTime / 1000000 beyond that. -/
theorem claim_C4_delta_normalization_amended {K : Type} [LinearOrderedField K]
    (dt : K) (h : dt > 1 / 10) :
    Player.normalizeDelta dt = dt / 1000
    ∧ (∀ (hyp : K → K → K) (ray : RayResult K) (gravY : K) (p : PlayerState K) b,
        p.body = some b → p.physicsEnabled = true →
        Player.update hyp ray gravY dt p
          = Player.physicsTick hyp ray gravY (dt / 1000) p)
    ∧ (∀ (hyp : K → K → K) (ray : RayResult K) (gravY : K) (p : PlayerState K),
        p.body = none →
        Player.update hyp ray gravY dt p
          = Player.simpleCore hyp (Player.fallbackIntegrationDelta dt) p)
    ∧ (dt ≤ 100 → Player.fallbackIntegrationDelta dt = dt / 1000) := by
  have h1 : Player.normalizeDelta dt = dt / 1000 := by
    simp only [Player.normalizeDelta, if_pos h]
  refine ⟨h1, ?_, ?_, ?_⟩
  · intro hyp ray gravY p b hb hen
    simp only [Player.update, hb, hen, if_true, h1]
  · intro hyp ray gravY p hb
    simp only [Player.update, hb, Player.updateSimpleMovement,
      Player.fallbackIntegrationDelta]
  · intro h100
    have h2 : ¬ (dt / 1000 > 1 / 10) := by
      rw [not_lt]
      calc dt / 1000 ≤ 100 / 1000 := by
            exact div_le_div_of_nonneg_right h100 (by norm_num)
        _ ≤ 1 / 10 := by norm_num
    simp only [Player.fallbackIntegrationDelta, Player.normalizeDelta,
      if_pos h, if_neg h2]

theorem claim_C4_counterexample :
    Player.fallbackIntegrationDelta (200 : ℚ) = 1 / 5000
    ∧ ¬ ((1 : ℚ) / 5000 = 200 / 1000) := by
  constructor
  · norm_num [Player.fallbackIntegrationDelta, Player.normalizeDelta]
  · norm_num

theorem claim_C4_witness :
    Player.normalizeDelta (1 : ℚ) = 1 / 1000
    ∧ Player.update (fun _ _ : ℚ => 0) ⟨false, 0⟩ (-(982 / 100)) 1
        ⟨"w4", "c", true, ⟨0, 2, 0⟩, ⟨0, 0, 0⟩, false,
          ⟨false, false, false, false, false⟩,
          some ⟨1, ⟨0, 2, 0⟩, ⟨0, 0, 0⟩, ⟨0, 0, 0⟩, ⟨0, 0, 0⟩⟩⟩
      = Player.physicsTick (fun _ _ : ℚ => 0) ⟨false, 0⟩ (-(982 / 100)) (1 / 1000)
        ⟨"w4", "c", true, ⟨0, 2, 0⟩, ⟨0, 0, 0⟩, false,
          ⟨false, false, false, false, false⟩,
          some ⟨1, ⟨0, 2, 0⟩, ⟨0, 0, 0⟩, ⟨0, 0, 0⟩, ⟨0, 0, 0⟩⟩⟩
    ∧ Player.update (fun _ _ : ℚ => 0) ⟨false, 0⟩ (-(982 / 100)) 1
        ⟨"w4b", "c", false, ⟨0, 2, 0⟩, ⟨0, 0, 0⟩, false,
          ⟨false, false, false, false, false⟩, none⟩
      = Player.simpleCore (fun _ _ : ℚ => 0) (Player.fallbackIntegrationDelta 1)
        ⟨"w4b", "c", false, ⟨0, 2, 0⟩, ⟨0, 0, 0⟩, false,
          ⟨false, false, false, false, false⟩, none⟩
    ∧ Player.fallbackIntegrationDelta (1 : ℚ) = 1 / 1000 := by
  have h := claim_C4_delta_normalization_amended (1 : ℚ) (by norm_num)
  exact ⟨h.1,
    h.2.1 (fun _ _ : ℚ => 0) ⟨false, 0⟩ (-(982 / 100))
      ⟨"w4", "c", true, ⟨0, 2, 0⟩, ⟨0, 0, 0⟩, false,
        ⟨false, false, false, false, false⟩,
        some ⟨1, ⟨0, 2, 0⟩, ⟨0, 0, 0⟩, ⟨0, 0, 0⟩, ⟨0, 0, 0⟩⟩⟩
      ⟨1, ⟨0, 2, 0⟩, ⟨0, 0, 0⟩, ⟨0, 0, 0⟩, ⟨0, 0, 0⟩⟩ rfl rfl,
    h.2.2.1 (fun _ _ : ℚ => 0) ⟨false, 0⟩ (-(982 / 100))
      ⟨"w4b", "c", false, ⟨0, 2, 0⟩, ⟨0, 0, 0⟩, false,
        ⟨false, false, false, false, false⟩, none⟩ rfl,
    h.2.2.2 (by norm_num)⟩

/-- C8: each tick, a gameUpdate snapshot goes out exactly when at least one
Participant is registered at broadcast time (the registry size is
unchanged by the update phase), and the participant sequence length of an
emitted snapshot equals the registry size at that instant. -/
theorem claim_C8_snapshot_completeness {K : Type} [LinearOrderedField K]
    (hyp : K → K → K) (rays : String → RayResult K) (gravY : K)
    (physEnabled : Bool) (now : ℕ) (st : GMState K) :
    ((GameManager.gameLoop hyp rays gravY physEnabled now st).2.isSome = true
      ↔ st.players ≠ [])
    ∧ (GameManager.gameLoop hyp rays gravY physEnabled now st).1.players.length
        = st.players.length
    ∧ ((GameManager.gameLoop hyp rays gravY physEnabled now st).2.map
          (fun s => s.players.length)).getD st.players.length
        = st.players.length := by
  refine ⟨?_, ?_, ?_⟩
  · by_cases hne : st.players = []
    · simp [GameManager.gameLoop, GameManager.updateAllPlayers,
        GameManager.broadcastGameState, hne]
    · have hpos : 0 < st.players.length := List.length_pos.mpr hne
      simp [GameManager.gameLoop, GameManager.updateAllPlayers,
        GameManager.broadcastGameState, hpos, hne]
  · simp [GameManager.gameLoop, GameManager.updateAllPlayers]
  · by_cases hne : st.players = []
    · simp [GameManager.gameLoop, GameManager.updateAllPlayers,
        GameManager.broadcastGameState, hne]
    · have hpos : 0 < st.players.length := List.length_pos.mpr hne
      simp [GameManager.gameLoop, GameManager.updateAllPlayers,
        GameManager.broadcastGameState, hpos]

theorem lookup_eq_none_of_not_mem {β : Type} (l : List (String × β)) (id : String)
    (h : id ∉ l.map Prod.fst) : List.lookup id l = none := by
  induction l with
  | nil => rfl
  | cons e rest ih =>
      simp only [List.map_cons, List.mem_cons, not_or] at h
      have hne : (id == e.1) = false := by
        simp only [beq_eq_false_iff_ne, ne_eq]
        exact h.1
      simp only [List.lookup, hne]
      exact ih h.2

theorem lookup_eraseP_self {β : Type} (l : List (String × β)) (id : String)
    (h : (l.map Prod.fst).Nodup) :
    List.lookup id (List.eraseP (fun e => e.1 == id) l) = none ∨
      List.lookup id l = none := by
  induction l with
  | nil => exact Or.inl rfl
  | cons e rest ih =>
      simp only [List.map_cons, List.nodup_cons] at h
      by_cases he : e.1 = id
      · left
        have hpe : (e.1 == id) = true := by
          simp [he]
        rw [List.eraseP_cons, hpe, cond_true]
        apply lookup_eq_none_of_not_mem
        rw [← he]
        exact h.1
      · have hpe : (e.1 == id) = false := by
          simp [he]
        rw [List.eraseP_cons, hpe, cond_false]
        have hbe : (id == e.1) = false := by
          simp only [beq_eq_false_iff_ne, ne_eq]
          exact fun hc => he hc.symm
        rcases ih h.2 with h1 | h1
        · left
          simp only [List.lookup, hbe]
          exact h1
        · right
          simp only [List.lookup, hbe]
          exact h1

/-- C9: removing the same Participant twice is harmless: the second call
finds nothing and leaves registry and physics world untouched; and a
Participant destroy is safe to repeat, because removal of an
already-removed body is a no-op in the world registry. -/
theorem claim_C9_idempotent_teardown (st : TeardownState) (id : String)
    (hkeys : (st.players.map Prod.fst).Nodup)
    (w : WorldState) (ob : Option ℕ)
    (hcount : ob.elim True (fun b => List.count b w.bodies ≤ 1)) :
    GameManager.removePlayer (GameManager.removePlayer st id) id
      = GameManager.removePlayer st id
    ∧ Player.destroy ob (Player.destroy ob w) = Player.destroy ob w := by
  constructor
  · cases hlk : List.lookup id st.players with
    | none => simp [GameManager.removePlayer, hlk]
    | some body =>
        rcases lookup_eraseP_self st.players id hkeys with h1 | h1
        · simp [GameManager.removePlayer, hlk, h1]
        · rw [hlk] at h1
          exact absurd h1 (by simp)
  · cases ob with
    | none => rfl
    | some b =>
        simp only [Option.elim] at hcount
        simp only [Player.destroy, PhysicsWorld.removeBody]
        by_cases hen : w.isEnabled
        · have hnm : b ∉ cannonRemoveBody w.bodies b := by
            intro hmem
            have hc := List.count_erase_self b w.bodies
            have hpos := List.count_pos_iff.mpr hmem
            simp only [cannonRemoveBody] at hpos
            omega
          simp only [cannonRemoveBody] at hnm
          simp only [hen, if_true, cannonRemoveBody]
          rw [List.erase_of_not_mem hnm]
        · simp [hen]

theorem claim_C9_witness :
    GameManager.removePlayer (GameManager.removePlayer
        ⟨[(("a"), some 1), (("b"), none)], ⟨true, [1, 2]⟩⟩ ("a")) ("a")
      = GameManager.removePlayer
          ⟨[(("a"), some 1), (("b"), none)], ⟨true, [1, 2]⟩⟩ ("a")
    ∧ Player.destroy (some 5) (Player.destroy (some 5) ⟨true, [5, 7]⟩)
      = Player.destroy (some 5) ⟨true, [5, 7]⟩ :=
  claim_C9_idempotent_teardown
    ⟨[(("a"), some 1), (("b"), none)], ⟨true, [1, 2]⟩⟩ ("a") (by decide)
    ⟨true, [5, 7]⟩ (some 5) (show List.count 5 [5, 7] ≤ 1 by decide)

/-- C10: in kinematic fallback mode the vertical velocity is never written
(so it stays at the zero it is constructed with), the vertical position
only changes by the clamp up to 0, and the jump bit has no effect on the
motion state (position, velocity, grounded flag). -/
theorem claim_C10_fallback_invariants {K : Type} [LinearOrderedField K]
    (hyp : K → K → K) (dt : K) (p : PlayerState K) :
    ((Player.updateSimpleMovement hyp dt p).velocity.y = p.velocity.y)
    ∧ ((Player.updateSimpleMovement hyp dt p).position.y = max 0 p.position.y)
    ∧ (∀ j j' : Bool,
        (Player.updateSimpleMovement hyp dt
            { p with input := { p.input with jump := j } }).position
          = (Player.updateSimpleMovement hyp dt
            { p with input := { p.input with jump := j' } }).position
        ∧ (Player.updateSimpleMovement hyp dt
            { p with input := { p.input with jump := j } }).velocity
          = (Player.updateSimpleMovement hyp dt
            { p with input := { p.input with jump := j' } }).velocity
        ∧ (Player.updateSimpleMovement hyp dt
            { p with input := { p.input with jump := j } }).onGround
          = (Player.updateSimpleMovement hyp dt
            { p with input := { p.input with jump := j' } }).onGround)
    ∧ (∀ (ray : RayResult K) (gravY : K), p.body = none →
        (Player.update hyp ray gravY dt p).velocity.y = p.velocity.y
        ∧ (Player.update hyp ray gravY dt p).position.y = max 0 p.position.y
        ∧ (Player.update hyp ray gravY dt p).body = none)
    ∧ (∀ (id : String) (x y z : K) (c : String),
        (Player.createPlayerFallback id x y z c).velocity = (⟨0, 0, 0⟩ : Vec3 K)
        ∧ (Player.createPlayerFallback id x y z c).body = none) := by
  refine ⟨rfl, rfl, ?_, ?_, ?_⟩
  · intro j j'
    exact ⟨rfl, rfl, rfl⟩
  · intro ray gravY hb
    refine ⟨?_, ?_, ?_⟩ <;> simp [Player.update, hb, Player.updateSimpleMovement,
      Player.simpleCore]
  · intro id x y z c
    exact ⟨rfl, rfl⟩

theorem claim_C10_witness :
    (Player.update (fun _ _ : ℚ => 0) ⟨false, 0⟩ (-(982 / 100)) (1 / 60)
        ⟨"wx", "c", false, ⟨1, -2, 3⟩, ⟨4, 0, 6⟩, false,
          ⟨false, false, true, false, true⟩, none⟩).velocity.y = 0
    ∧ (Player.update (fun _ _ : ℚ => 0) ⟨false, 0⟩ (-(982 / 100)) (1 / 60)
        ⟨"wx", "c", false, ⟨1, -2, 3⟩, ⟨4, 0, 6⟩, false,
          ⟨false, false, true, false, true⟩, none⟩).position.y = max 0 (-2)
    ∧ (Player.update (fun _ _ : ℚ => 0) ⟨false, 0⟩ (-(982 / 100)) (1 / 60)
        ⟨"wx", "c", false, ⟨1, -2, 3⟩, ⟨4, 0, 6⟩, false,
          ⟨false, false, true, false, true⟩, none⟩).body = none :=
  (claim_C10_fallback_invariants (fun _ _ : ℚ => 0) (1 / 60)
    ⟨"wx", "c", false, ⟨1, -2, 3⟩, ⟨4, 0, 6⟩, false,
      ⟨false, false, true, false, true⟩, none⟩).2.2.2.1 ⟨false, 0⟩
    (-(982 / 100)) rfl
